import Mathlib

/-!
Verification of the btc_backtester strategy-evaluation and backtesting engine.

The development shallowly embeds the Python sources:
- `PFloat` models a numpy/pandas double (finite rational, infinities, NaN);
  rationals stand in for IEEE doubles, since no verified property depends on
  binary rounding.
- rolling means, shifts, percent change and exponential means model the pandas
  column operations used by the strategies.
- the signal pipelines of simple_ma_strategy.py, moving_average.py,
  rsi_strategy.py, rsi.py and macd_strategy.py are embedded per bar index.
- `executeTrade`, `runStep`, `runFrom` and `runBacktest` embed
  Backtester._execute_trade and Backtester.run (backtester.py); the strategy
  call is abstracted into an input signal sequence.
- `maxDrawdownNE` and `calculateMetrics` embed Backtester._calculate_max_drawdown
  and Backtester._calculate_metrics; real-valued square root and power have no
  exact rational counterpart, so they are passed as function parameters,
  and the theorems hold for every choice of them.
- `applyRiskManagement` embeds BaseStrategy.apply_risk_management
  (base_strategy.py); `overlayStep` models the risk-overlay state machine.
- `runBacktestGuards` embeds the parameter guards of
  BacktestService.run_backtest (backtest_service.py), `validateNumericRange`
  the one of ValidationService (validation_service.py), and `validateParams`
  the body of StrategyRegistry.validate_parameters (strategy_registry.py).
-/

namespace BtcBacktester

/-- Model of a Python/numpy double as held in a pandas column: NaN, an
infinity, or a finite value (represented by a rational). -/
inductive PFloat where
  | nan : PFloat
  | inf : PFloat
  | ninf : PFloat
  | fin : ℚ → PFloat
deriving DecidableEq, Repr

namespace PFloat

/-- numpy addition: NaN propagates, inf + (-inf) = NaN. -/
def add : PFloat → PFloat → PFloat
  | nan, _ => nan
  | _, nan => nan
  | inf, ninf => nan
  | ninf, inf => nan
  | inf, _ => inf
  | _, inf => inf
  | ninf, _ => ninf
  | _, ninf => ninf
  | fin a, fin b => fin (a + b)

/-- numpy negation. -/
def neg : PFloat → PFloat
  | nan => nan
  | inf => ninf
  | ninf => inf
  | fin a => fin (-a)

/-- numpy subtraction. -/
def sub (a b : PFloat) : PFloat := a.add b.neg

/-- numpy multiplication: NaN propagates, inf times zero = NaN. -/
def mul : PFloat → PFloat → PFloat
  | nan, _ => nan
  | _, nan => nan
  | inf, inf => inf
  | inf, ninf => ninf
  | ninf, inf => ninf
  | ninf, ninf => inf
  | inf, fin q => if 0 < q then inf else if q < 0 then ninf else nan
  | fin q, inf => if 0 < q then inf else if q < 0 then ninf else nan
  | ninf, fin q => if 0 < q then ninf else if q < 0 then inf else nan
  | fin q, ninf => if 0 < q then ninf else if q < 0 then inf else nan
  | fin a, fin b => fin (a * b)

/-- numpy division: NaN propagates, a nonzero finite value divided by zero is
a signed infinity, zero by zero is NaN, finite over infinite is zero. -/
def div : PFloat → PFloat → PFloat
  | nan, _ => nan
  | _, nan => nan
  | inf, inf => nan
  | inf, ninf => nan
  | ninf, inf => nan
  | ninf, ninf => nan
  | inf, fin q => if q < 0 then ninf else inf
  | ninf, fin q => if q < 0 then inf else ninf
  | fin _, inf => fin 0
  | fin _, ninf => fin 0
  | fin a, fin b =>
      if b = 0 then (if 0 < a then inf else if a < 0 then ninf else nan)
      else fin (a / b)

/-- Comparison x > y as pandas evaluates it: any comparison with NaN is false. -/
def bgt : PFloat → PFloat → Bool
  | nan, _ => false
  | _, nan => false
  | inf, inf => false
  | inf, _ => true
  | _, inf => false
  | ninf, _ => false
  | _, ninf => true
  | fin a, fin b => decide (b < a)

/-- Comparison x < y, NaN compares false. -/
def blt (a b : PFloat) : Bool := bgt b a

/-- Comparison x >= y, NaN compares false. -/
def bge : PFloat → PFloat → Bool
  | nan, _ => false
  | _, nan => false
  | inf, _ => true
  | _, inf => false
  | _, ninf => true
  | ninf, _ => false
  | fin a, fin b => decide (b ≤ a)

/-- Comparison x <= y, NaN compares false. -/
def ble (a b : PFloat) : Bool := bge b a

/-- pandas isna: true exactly on NaN. -/
def isna : PFloat → Bool
  | nan => true
  | _ => false

end PFloat

/-- pandas Series.rolling(window=w).mean() at index i of the column f: NaN
while fewer than w observations exist, else the mean of the w values ending at
i, computed with PFloat arithmetic so a NaN inside the window propagates
(min_periods defaults to the window size). -/
def rollMean (w : ℕ) (f : ℕ → PFloat) (i : ℕ) : PFloat :=
  if i + 1 < w then .nan
  else (((List.range w).map fun j => f (i + 1 - w + j)).foldl PFloat.add (.fin 0)).div
    (.fin (w : ℚ))

/-! ## simple_ma_strategy.py and moving_average.py -/

/-- Rolling mean of the close column. simple_ma_strategy.py lines 82-96 build
it with np.convolve prefixed by w-1 NaN entries, moving_average.py lines 31-37
with close.rolling(window).mean(); on a finite close series both equal this. -/
def sma (w : ℕ) (closes : List ℚ) (i : ℕ) : PFloat :=
  rollMean w (fun j => .fin (closes.getD j 0)) i

/-- Column short_above of SimpleMAStrategy.generate_signals (line 106):
(short_ma > long_ma) as pandas evaluates it, NaN comparing false. -/
def shortAbove (sw lw : ℕ) (closes : List ℚ) (i : ℕ) : Bool :=
  (sma sw closes i).bgt (sma lw closes i)

/-- Signal column of SimpleMAStrategy.generate_signals before the NaN cleanup
(lines 103-121): prev_short_above is short_above shifted by one (NaN at index
0, and a comparison of NaN with 0 or 1 is false); the buy rows are set first
and the sell rows second, and the two conditions are disjoint. -/
def simpleMASignalRaw (sw lw : ℕ) (closes : List ℚ) (i : ℕ) : ℤ :=
  if i = 0 then 0
  else if ¬ shortAbove sw lw closes i ∧ shortAbove sw lw closes (i - 1) then -1
  else if shortAbove sw lw closes i ∧ ¬ shortAbove sw lw closes (i - 1) then 1
  else 0

/-- Signal column of SimpleMAStrategy.generate_signals (simple_ma_strategy.py),
after line 127 zeroes every row whose short or long moving average is NaN. -/
def simpleMASignal (sw lw : ℕ) (closes : List ℚ) (i : ℕ) : ℤ :=
  if (sma sw closes i).isna ∨ (sma lw closes i).isna then 0
  else simpleMASignalRaw sw lw closes i

/-- Signal column of MovingAverageStrategy.generate_signals
(moving_average.py lines 46-52): 1 on every row where short_ma > long_ma,
-1 on every row where short_ma < long_ma, 0 elsewhere (the two masks are
disjoint, and NaN rows fall in neither). -/
def maLevelSignal (sw lw : ℕ) (closes : List ℚ) (i : ℕ) : ℤ :=
  if (sma sw closes i).bgt (sma lw closes i) then 1
  else if (sma sw closes i).blt (sma lw closes i) then -1
  else 0

/-! ## rsi_strategy.py -/

/-- close.diff() at index i: NaN at index 0, else the difference to the
previous close (rsi_strategy.py line 29). -/
def deltaAt (closes : List ℚ) (i : ℕ) : PFloat :=
  if i = 0 then .nan else .fin (closes.getD i 0 - closes.getD (i - 1) 0)

/-- Gains column of RSIStrategy._initialize_indicators (rsi_strategy.py lines
32-34): the delta with negative entries replaced by 0; the NaN at index 0 is
kept, because NaN < 0 is false. -/
def gainA (closes : List ℚ) (i : ℕ) : PFloat :=
  match deltaAt closes i with
  | .fin d => .fin (max d 0)
  | x => x

/-- Losses column (rsi_strategy.py lines 33-36): positive entries replaced by
0, then the absolute value; the NaN at index 0 is kept. -/
def lossA (closes : List ℚ) (i : ℕ) : PFloat :=
  match deltaAt closes i with
  | .fin d => .fin (max (-d) 0)
  | x => x

/-- Series.replace(0, np.inf) applied pointwise (rsi_strategy.py line 43). -/
def replaceZeroInf : PFloat → PFloat
  | .fin q => if q = 0 then .inf else .fin q
  | x => x

/-- RS ratio of rsi_strategy.py line 43:
avg_gains / avg_losses.replace(0, np.inf). -/
def rsA (p : ℕ) (closes : List ℚ) (i : ℕ) : PFloat :=
  (rollMean p (gainA closes) i).div (replaceZeroInf (rollMean p (lossA closes) i))

/-- RSI column of rsi_strategy.py line 44: 100 - (100 / (1 + rs)). -/
def rsiA (p : ℕ) (closes : List ℚ) (i : ℕ) : PFloat :=
  (PFloat.fin 100).sub ((PFloat.fin 100).div ((PFloat.fin 1).add (rsA p closes i)))

/-- Signal column of RSIStrategy.generate_signals (rsi_strategy.py lines
62-87): prev_rsi is the RSI shifted by one (NaN at index 0); buy rows are set
where prev_rsi >= oversold and rsi < oversold, sell rows second where
prev_rsi <= overbought and rsi > overbought (the later assignment wins), and
line 87 zeroes every row whose RSI is NaN. -/
def rsiSignal (p : ℕ) (os ob : ℚ) (closes : List ℚ) (i : ℕ) : ℤ :=
  if (rsiA p closes i).isna then 0
  else
    let r := rsiA p closes i
    let pr := if i = 0 then PFloat.nan else rsiA p closes (i - 1)
    if pr.ble (.fin ob) ∧ r.bgt (.fin ob) then -1
    else if pr.bge (.fin os) ∧ r.blt (.fin os) then 1
    else 0

/-! ## rsi.py -/

/-- Gain column of rsi.py line 36: delta.where(delta > 0, 0); the index-0 NaN
compares false against 0 and is replaced by 0. -/
def gainB (closes : List ℚ) (i : ℕ) : PFloat :=
  .fin (if i = 0 then 0 else max (closes.getD i 0 - closes.getD (i - 1) 0) 0)

/-- Loss column of rsi.py line 39: (-delta.where(delta < 0, 0)); the index-0
NaN is replaced by 0, negative deltas are negated, others give 0. -/
def lossB (closes : List ℚ) (i : ℕ) : PFloat :=
  .fin (if i = 0 then 0 else max (closes.getD (i - 1) 0 - closes.getD i 0) 0)

/-- RS ratio of rsi.py line 43: gain / loss, with numpy division semantics
(positive over zero is inf, zero over zero is NaN). -/
def rsB (p : ℕ) (closes : List ℚ) (i : ℕ) : PFloat :=
  (rollMean p (gainB closes) i).div (rollMean p (lossB closes) i)

/-- RSI column of rsi.py line 44: 100 - (100 / (1 + rs)). -/
def rsiB (p : ℕ) (closes : List ℚ) (i : ℕ) : PFloat :=
  (PFloat.fin 100).sub ((PFloat.fin 100).div ((PFloat.fin 1).add (rsB p closes i)))

/-! ## macd_strategy.py -/

/-- Smoothing factor of pandas ewm(span=s, adjust=False): 2 / (s + 1). -/
def emaAlpha (span : ℕ) : ℚ := 2 / ((span : ℚ) + 1)

/-- pandas Series.ewm(span, adjust=False).mean() at index i: the recursive
exponential mean y0 = x0, y(i+1) = (1 - a) y(i) + a x(i+1). -/
def emaAt (span : ℕ) (f : ℕ → PFloat) : ℕ → PFloat
  | 0 => f 0
  | i + 1 =>
      ((PFloat.fin (1 - emaAlpha span)).mul (emaAt span f i)).add
        ((PFloat.fin (emaAlpha span)).mul (f (i + 1)))

/-- MACD column of macd_strategy.py lines 100-103: fast EMA minus slow EMA of
the close column. -/
def macdAt (fast slow : ℕ) (closes : List ℚ) (i : ℕ) : PFloat :=
  (emaAt fast (fun j => .fin (closes.getD j 0)) i).sub
    (emaAt slow (fun j => .fin (closes.getD j 0)) i)

/-- Signal-line column of macd_strategy.py line 104: EMA of the MACD column. -/
def macdSigAt (fast slow sigp : ℕ) (closes : List ℚ) (i : ℕ) : PFloat :=
  emaAt sigp (macdAt fast slow closes) i

/-- Histogram column of macd_strategy.py line 105: MACD minus signal line. -/
def histAt (fast slow sigp : ℕ) (closes : List ℚ) (i : ℕ) : PFloat :=
  (macdAt fast slow closes i).sub (macdSigAt fast slow sigp closes i)

/-- Histogram direction of macd_strategy.py line 116: 1 where the histogram is
positive, else -1 (a NaN histogram also maps to -1). -/
def histDir (fast slow sigp : ℕ) (closes : List ℚ) (i : ℕ) : ℤ :=
  if (histAt fast slow sigp closes i).bgt (.fin 0) then 1 else -1

/-- Signal column of MACDStrategy.generate_signals (macd_strategy.py lines
107-157): crossover of the MACD and signal lines against their shift-by-one
values (NaN at index 0 compares false), optionally gated by the histogram
direction when use_histogram is set; buy rows are assigned first and sell rows
second (the conditions are disjoint), and line 157 zeroes every row whose MACD
or signal-line value is NaN. -/
def macdSignal (fast slow sigp : ℕ) (useHist : Bool) (closes : List ℚ) (i : ℕ) : ℤ :=
  if (macdAt fast slow closes i).isna ∨ (macdSigAt fast slow sigp closes i).isna then 0
  else
    let m := macdAt fast slow closes i
    let s := macdSigAt fast slow sigp closes i
    let pm := if i = 0 then PFloat.nan else macdAt fast slow closes (i - 1)
    let ps := if i = 0 then PFloat.nan else macdSigAt fast slow sigp closes (i - 1)
    let buyOk : Bool := if useHist then decide (histDir fast slow sigp closes i = 1) else true
    let sellOk : Bool := if useHist then decide (histDir fast slow sigp closes i = -1) else true
    if m.blt s ∧ pm.bge ps ∧ sellOk then -1
    else if m.bgt s ∧ pm.ble ps ∧ buyOk then 1
    else 0

/-! ## backtester.py: Backtester.run and Backtester._execute_trade -/

/-- Trade direction of a ledger record. -/
inductive TradeType where
  | buy : TradeType
  | sell : TradeType
deriving DecidableEq, Repr

/-- One entry of the trades list built by Backtester._execute_trade
(backtester.py lines 123-130 and 136-143): a single-sided record of one buy or
one sell; there are no exit fields. The timestamp field is omitted (it is a
raw index value and no claim concerns it). -/
structure TradeRec where
  ttype : TradeType
  price : ℚ
  shares : ℚ
  value : ℚ
  commission : ℚ
deriving DecidableEq, Repr

/-- The mutable portfolio dict of Backtester.initialize (backtester.py lines
29-35), restricted to its numeric fields. -/
structure Portfolio where
  cash : ℚ
  position : ℚ
  total_value : ℚ
deriving DecidableEq, Repr

/-- The parameter dict of Backtester.initialize (backtester.py lines 36-41).
stop_loss and take_profit are stored but never read by run or _execute_trade. -/
structure BtParams where
  position_size : ℚ
  stop_loss : ℚ
  take_profit : ℚ
  commission : ℚ
deriving DecidableEq, Repr

/-- Backtester._execute_trade (backtester.py lines 110-145): on a buy signal
while flat, the position value is total_value times position_size and the buy
executes only when cash covers position value plus commission; on a sell
signal while holding, the full position is sold at the current price. The
returned record's shares field on a sell is the stale shares variable computed
from the buy-sizing formula, exactly as in the source. total_value is not
touched here (run updates it afterwards). -/
def executeTrade (p : BtParams) (pf : Portfolio) (sig : ℤ) (price : ℚ) :
    Portfolio × Option TradeRec :=
  if sig = 0 then (pf, none)
  else
    let position_value := pf.total_value * p.position_size
    let shares := position_value / price
    let commission := position_value * p.commission
    if 0 < sig ∧ pf.position = 0 then
      if position_value + commission ≤ pf.cash then
        (⟨pf.cash - (position_value + commission), shares, pf.total_value⟩,
          some ⟨.buy, price, shares, position_value, commission⟩)
      else (pf, none)
    else if sig < 0 ∧ 0 < pf.position then
      let pv2 := pf.position * price
      let comm2 := pv2 * p.commission
      (⟨pf.cash + (pv2 - comm2), 0, pf.total_value⟩,
        some ⟨.sell, price, shares, pv2, comm2⟩)
    else (pf, none)

/-- The state Backtester.run accumulates: the portfolio dict, the local trades
list, the portfolio_values list and the per-bar history snapshots. -/
structure RunState where
  pf : Portfolio
  trades : List TradeRec
  values : List ℚ
  history : List Portfolio
deriving DecidableEq, Repr

/-- One iteration of the loop in Backtester.run (backtester.py lines 68-95)
at bar index i with the strategy's signal and the bar's close: a trade is
attempted when the signal is nonzero and at least two bars of data exist
(len(current_data) > 1 means i >= 1), then total_value is recomputed as
cash + position * close and appended to values and history. -/
def runStep (p : BtParams) (st : RunState) (i : ℕ) (sig : ℤ) (price : ℚ) : RunState :=
  let tr := if sig ≠ 0 ∧ 1 ≤ i then executeTrade p st.pf sig price else (st.pf, none)
  let pf2 : Portfolio := ⟨tr.1.cash, tr.1.position, tr.1.cash + tr.1.position * price⟩
  ⟨pf2, st.trades ++ tr.2.toList, st.values ++ [pf2.total_value], st.history ++ [pf2]⟩

/-- The loop of Backtester.run from bar index i onward over the remaining
(signal, close) pairs; the strategy call generate_signal is abstracted into
the input signal of each bar. -/
def runFrom (p : BtParams) : ℕ → RunState → List (ℤ × ℚ) → RunState
  | _, st, [] => st
  | i, st, (sig, price) :: rest => runFrom p (i + 1) (runStep p st i sig price) rest

/-- Backtester.run (backtester.py lines 53-95) up to the metrics call: the
portfolio starts as cash = total_value = initial capital with no position
(Backtester.initialize, lines 29-35) and the loop walks every bar once. -/
def runBacktest (p : BtParams) (capital : ℚ) (bars : List (ℤ × ℚ)) : RunState :=
  runFrom p 0 ⟨⟨capital, 0, capital⟩, [], [], []⟩ bars

/-- Number of buy records in a trades list. -/
def buyCount (trades : List TradeRec) : ℕ :=
  trades.countP (fun t => decide (t.ttype = TradeType.buy))

/-- Number of sell records in a trades list. -/
def sellCount (trades : List TradeRec) : ℕ :=
  trades.countP (fun t => decide (t.ttype = TradeType.sell))

/-! ## backtester.py: metrics -/

/-- Exceptions the metrics code can raise. -/
inductive PyErr where
  | zeroDivisionError : PyErr
  | indexError : PyErr
deriving DecidableEq, Repr

/-- Fold step of the loop in Backtester._calculate_max_drawdown (backtester.py
lines 170-174): raise the peak when the value exceeds it, then take the worst
of the running drawdown and (peak - value) / peak. -/
def ddStep : ℚ × ℚ → ℚ → ℚ × ℚ
  | (peak, mdd), value =>
    let peak1 := if peak < value then value else peak
    (peak1, max mdd ((peak1 - value) / peak1))

/-- Backtester._calculate_max_drawdown on a nonempty values list: peak starts
at the first value, the drawdown at 0, and the loop runs over the rest. -/
def maxDrawdownNE (v0 : ℚ) (rest : List ℚ) : ℚ :=
  (rest.foldl ddStep (v0, 0)).2

/-- Backtester._calculate_max_drawdown (backtester.py lines 165-176);
portfolio_values[0] raises IndexError on an empty list, modelled as none. -/
def calculateMaxDrawdown : List ℚ → Option ℚ
  | [] => none
  | v :: r => some (maxDrawdownNE v r)

/-- Modelled from the spec, section 4.5 (the corresponding formula has no
implementation of its own in the sources): the running maximum threaded
through the curve, then max_drawdown = min over time of
(total_value / running_max(total_value) - 1), and 0 on an empty curve.
`ddTerms m values` lists the per-bar terms with the running maximum seeded at
m. -/
def ddTerms : ℚ → List ℚ → List ℚ
  | _, [] => []
  | m, v :: r => (v / max m v - 1) :: ddTerms (max m v) r

/-- Modelled from the spec, section 4.5: the minimum over time of
(total_value / running_max - 1); the first bar's term is v / v - 1 and seeds
the fold; 0 on an empty curve. -/
def specMaxDrawdown : List ℚ → ℚ
  | [] => 0
  | v :: r => (ddTerms v r).foldl min (v / v - 1)

/-- pandas Series(values).pct_change() over a list of Python floats: NaN at
index 0, else value over previous value minus 1, with numpy division
semantics when the previous value is 0. -/
def pctChange (values : List ℚ) : List PFloat :=
  (List.range values.length).map fun i =>
    if i = 0 then PFloat.nan
    else ((PFloat.fin (values.getD i 0)).div (.fin (values.getD (i - 1) 0))).sub (.fin 1)

/-- pandas Series.dropna: remove the NaN entries. -/
def dropna (xs : List PFloat) : List PFloat :=
  xs.filter (fun x => !x.isna)

/-- pandas Series.mean with PFloat arithmetic: the sum over the length. -/
def meanP (xs : List PFloat) : PFloat :=
  (xs.foldl PFloat.add (.fin 0)).div (.fin (xs.length : ℚ))

/-- pandas Series.std (sample standard deviation, ddof = 1): NaN below two
observations, else the square root of the variance. The real-valued square
root has no exact rational counterpart, so it is supplied as the parameter
rsqrt, applied only to a finite variance; every theorem below holds for any
rsqrt that sends 0 to 0 as the real square root does. -/
def stdP (rsqrt : ℚ → ℚ) (xs : List PFloat) : PFloat :=
  if xs.length < 2 then .nan
  else
    let m := meanP xs
    let sq := xs.foldl (fun (a x : PFloat) => a.add ((x.sub m).mul (x.sub m))) (PFloat.fin 0)
    match sq.div (.fin ((xs.length - 1 : ℕ) : ℚ)) with
    | .fin q => .fin (rsqrt q)
    | .inf => .inf
    | .ninf => .nan
    | .nan => .nan

/-- The metrics record Backtester._calculate_metrics returns (backtester.py
lines 156-163). sharpe is a PFloat because the unguarded division by the
standard deviation can produce NaN or an infinity. -/
structure MetricsRes where
  total_return : ℚ
  annual_return : ℚ
  sharpe : PFloat
  max_drawdown : ℚ
  total_trades : ℕ
  final_value : ℚ
deriving Repr

/-- Backtester._calculate_metrics (backtester.py lines 147-163).
returns = Series(values).pct_change().dropna();
total_return = values[-1] / values[0] - 1 (IndexError on an empty list,
ZeroDivisionError when values[0] is 0, since these are Python floats);
annual_return = (1 + total_return) ** (252 / len(returns)) - 1, whose exponent
raises ZeroDivisionError when no return observation exists; the real-valued
power is supplied as the parameter powf;
sharpe = sqrt(252) * mean(returns) / std(returns) when len(returns) > 1, else
0, with no guard against a zero standard deviation;
total_trades = len(portfolio trades), which run never appends to (it collects
trades in a local list), passed here as nTrades. -/
def calculateMetrics (rsqrt : ℚ → ℚ) (powf : ℚ → ℚ → ℚ) (nTrades : ℕ)
    (values : List ℚ) : Except PyErr MetricsRes :=
  match values with
  | [] => .error .indexError
  | v0 :: rest =>
    if v0 = 0 then .error .zeroDivisionError
    else
      let rets := dropna (pctChange (v0 :: rest))
      let tr := rest.getLastD v0 / v0 - 1
      if rets.length = 0 then .error .zeroDivisionError
      else
        let annual := powf (1 + tr) (252 / (rets.length : ℚ)) - 1
        let sharpe :=
          if 1 < rets.length then
            ((PFloat.fin (rsqrt 252)).mul (meanP rets)).div (stdP rsqrt rets)
          else .fin 0
        .ok ⟨tr, annual, sharpe, maxDrawdownNE v0 rest, nTrades, rest.getLastD v0⟩

/-! ## base_strategy.py: risk management -/

/-- Position direction (the type field of the Position dataclass). -/
inductive PosKind where
  | long : PosKind
  | short : PosKind
deriving DecidableEq, Repr

/-- The Position dataclass of base_strategy.py lines 39-49, restricted to the
fields apply_risk_management reads. -/
structure OpenPosition where
  entry_price : ℚ
  stop_loss : ℚ
  take_profit : ℚ
  kind : PosKind
deriving DecidableEq, Repr

/-- BaseStrategy.apply_risk_management (base_strategy.py lines 171-183):
for a long position, the current price triggers an exit when it falls to or
below entry * (1 - stop_loss) or rises to or above entry * (1 + take_profit);
the symmetric rule for a short position; the triggered exit price is the
current price, and the result is None when nothing triggers. -/
def applyRiskManagement (pos : OpenPosition) (current_price : ℚ) : Option ℚ :=
  match pos.kind with
  | .long =>
    if current_price ≤ pos.entry_price * (1 - pos.stop_loss) then some current_price
    else if pos.entry_price * (1 + pos.take_profit) ≤ current_price then some current_price
    else none
  | .short =>
    if pos.entry_price * (1 + pos.stop_loss) ≤ current_price then some current_price
    else if current_price ≤ pos.entry_price * (1 - pos.take_profit) then some current_price
    else none

/-- State of the risk-overlay state machine of spec section 4.3. -/
inductive OverlayState where
  | noPosition : OverlayState
  | long : ℚ → OverlayState
deriving DecidableEq, Repr

/-- Modelled from the spec, section 4.3 (the overlay loop that walks the
signal sequence has no implementation in the sources; only its per-bar trigger
test, BaseStrategy.apply_risk_management, exists and is reused here): from
NO_POSITION a BUY opens a long position at the bar's close; while LONG the
close is compared against the entry via apply_risk_management, and a trigger
overwrites the bar's signal with SELL and returns to NO_POSITION regardless of
the strategy's own signal; the strategy's own SELL is honored and also returns
to NO_POSITION. -/
def overlayStep (sl tp : ℚ) : OverlayState → ℤ → ℚ → OverlayState × ℤ
  | .noPosition, sig, close => if sig = 1 then (.long close, 1) else (.noPosition, sig)
  | .long entry, sig, close =>
    match applyRiskManagement ⟨entry, sl, tp, .long⟩ close with
    | some _ => (.noPosition, -1)
    | none => if sig = -1 then (.noPosition, -1) else (.long entry, sig)

/-! ## backtest_service.py and validation_service.py guards -/

/-- The guard failures of BacktestService.run_backtest. -/
inductive GuardErr where
  | badInitialCapital : GuardErr
  | badStopLoss : GuardErr
  | badTakeProfit : GuardErr
  | badPositionSize : GuardErr
  | badCommission : GuardErr
deriving DecidableEq, Repr

/-- The parameter guards of BacktestService.run_backtest
(backtest_service.py lines 160-171), checked in source order before any data
preparation or simulation state: initial_capital must be positive, stop_loss
and take_profit must satisfy 0 <= x < 1, position_size 0 < x <= 1, and
commission 0 <= x < 1. -/
def runBacktestGuards (capital sl tp ps comm : ℚ) : Except GuardErr Unit :=
  if capital ≤ 0 then .error .badInitialCapital
  else if ¬ (0 ≤ sl ∧ sl < 1) then .error .badStopLoss
  else if ¬ (0 ≤ tp ∧ tp < 1) then .error .badTakeProfit
  else if ¬ (0 < ps ∧ ps ≤ 1) then .error .badPositionSize
  else if ¬ (0 ≤ comm ∧ comm < 1) then .error .badCommission
  else .ok ()

/-- ValidationService.validate_numeric_range (validation_service.py lines
11-24) for a present numeric value: fails exactly when the value is below the
minimum or above the maximum, so both endpoints are accepted;
validate_backtest_params calls it with bounds 0 and 1 for stop_loss,
take_profit, position_size and commission (lines 85-104). -/
def validateNumericRange (value minv maxv : ℚ) : Bool :=
  !(value < minv || maxv < value)

/-! ## strategy_registry.py: parameter validation -/

/-- A raw or validated parameter value: the registry schemas declare int,
float and bool parameters. -/
inductive PValue where
  | int : ℤ → PValue
  | float : ℚ → PValue
  | bool : Bool → PValue
deriving DecidableEq, Repr

/-- Declared type of a schema entry. -/
inductive PType where
  | int : PType
  | float : PType
  | bool : PType
deriving DecidableEq, Repr

/-- One entry of a get_parameters schema dict: type, optional default,
optional numeric bounds. -/
structure ParamSpec where
  ptype : PType
  default : Option PValue
  minv : Option ℚ
  maxv : Option ℚ
deriving DecidableEq, Repr

/-- Python truncation toward zero, as int() applies to a float. -/
def truncQ (q : ℚ) : ℤ :=
  if 0 ≤ q then ⌊q⌋ else ⌈q⌉

/-- Type coercion of StrategyRegistry.validate_parameters lines 84-92:
int(value), float(value) and bool(value) on an int, float or bool argument
(int() truncates a float toward zero; bool() tests against zero). -/
def coerceValue : PType → PValue → PValue
  | .int, .int n => .int n
  | .int, .float q => .int (truncQ q)
  | .int, .bool b => .int (if b then 1 else 0)
  | .float, .int n => .float n
  | .float, .float q => .float q
  | .float, .bool b => .float (if b then 1 else 0)
  | .bool, .int n => .bool (decide (n ≠ 0))
  | .bool, .float q => .bool (decide (q ≠ 0))
  | .bool, .bool b => .bool b

/-- Numeric view of a value for the min/max comparisons of lines 97-100. -/
def pvalToQ : PValue → ℚ
  | .int n => n
  | .float q => q
  | .bool b => if b then 1 else 0

/-- Validation failures of StrategyRegistry.validate_parameters. -/
inductive ValErr where
  | missingParam : String → ValErr
  | belowMin : String → ValErr
  | aboveMax : String → ValErr
deriving DecidableEq, Repr

/-- Association-list lookup standing for the raw parameters dict. -/
def lookupRaw (raw : List (String × PValue)) (name : String) : Option PValue :=
  (raw.find? (fun kv => kv.1 = name)).map (fun kv => kv.2)

/-- The check value < spec min of strategy_registry.py line 97 (false when the
schema declares no minimum). -/
def belowMinB (minv : Option ℚ) (v : PValue) : Bool :=
  match minv with
  | some m => decide (pvalToQ v < m)
  | none => false

/-- The check value > spec max of strategy_registry.py line 99 (false when the
schema declares no maximum). -/
def aboveMaxB (maxv : Option ℚ) (v : PValue) : Bool :=
  match maxv with
  | some m => decide (m < pvalToQ v)
  | none => false

/-- The body of StrategyRegistry.validate_parameters (strategy_registry.py
lines 69-104): walk the schema in order; a parameter absent from the raw dict
takes the schema default when one exists (bypassing coercion and range
checks) and fails otherwise; a present parameter is coerced to the declared
type and checked against the optional min and max bounds. -/
def validateParams : List (String × ParamSpec) → List (String × PValue) →
    Except ValErr (List (String × PValue))
  | [], _ => .ok []
  | (name, spec) :: restSchema, raw =>
    match lookupRaw raw name with
    | none =>
      match spec.default with
      | some d => (validateParams restSchema raw).map (fun v => (name, d) :: v)
      | none => .error (.missingParam name)
    | some value =>
      let value := coerceValue spec.ptype value
      if belowMinB spec.minv value then .error (.belowMin name)
      else if aboveMaxB spec.maxv value then .error (.aboveMax name)
      else (validateParams restSchema raw).map (fun v => (name, value) :: v)

/-- Outcome of calling a functools.lru_cache-wrapped Python function. -/
inductive PyCallResult (α : Type) where
  | ok : α → PyCallResult α
  | typeError : PyCallResult α
deriving DecidableEq, Repr

/-- Whether a Python dict can be hashed: it cannot, dict defines no hash. -/
def dictIsHashable : Bool := false

/-- StrategyRegistry.validate_parameters as actually callable
(strategy_registry.py lines 58-60): the classmethod is wrapped in
functools.lru_cache(maxsize=32), which hashes the positional arguments before
dispatching to the body; the parameters argument is a dict, hashing a dict
raises TypeError, so every call fails before the validation body runs. -/
def validateParametersCached (schema : List (String × ParamSpec))
    (raw : List (String × PValue)) : PyCallResult (Except ValErr (List (String × PValue))) :=
  if dictIsHashable then .ok (validateParams schema raw) else .typeError

/-- The parameter schema SimpleMAStrategy.get_parameters returns
(simple_ma_strategy.py lines 28-46): short_window int default 20 in [5, 100],
long_window int default 50 in [10, 200]. -/
def simpleMASchema : List (String × ParamSpec) :=
  [("short_window", ⟨.int, some (.int 20), some 5, some 100⟩),
   ("long_window", ⟨.int, some (.int 50), some 10, some 200⟩)]

/-- The per-parameter defaults of a schema whose entries all carry one
(Option.getD is only reached under the all-defaults hypothesis). -/
def schemaDefaults (schema : List (String × ParamSpec)) : List (String × PValue) :=
  schema.map (fun s => (s.1, s.2.default.getD (.int 0)))

/-- Invariant of a run for claim C10: nonnegative cash, position and total
value, and nonnegative cash in every history snapshot. -/
def CashInv (st : RunState) : Prop :=
  0 ≤ st.pf.cash ∧ 0 ≤ st.pf.position ∧ 0 ≤ st.pf.total_value ∧
  ∀ h ∈ st.history, 0 ≤ h.cash

/-- Invariant of a run for claim C2: the ledger holds one record per executed
buy and one per executed sell, an open position means exactly one more buy
than sells, a flat position means equally many, and the total value stays
positive. -/
def LedgerInv (st : RunState) : Prop :=
  st.trades.length = buyCount st.trades + sellCount st.trades ∧
  ((0 < st.pf.position ∧ buyCount st.trades = sellCount st.trades + 1 ∧ 0 ≤ st.pf.cash) ∨
   (st.pf.position = 0 ∧ buyCount st.trades = sellCount st.trades ∧ 0 < st.pf.cash)) ∧
  0 < st.pf.total_value

/-! ## Theorems -/

theorem PFloat.add_fin (a b : ℚ) : (PFloat.fin a).add (.fin b) = .fin (a + b) := rfl

theorem PFloat.sub_fin (a b : ℚ) : (PFloat.fin a).sub (.fin b) = .fin (a - b) := by
  simp [PFloat.sub, PFloat.neg, PFloat.add, sub_eq_add_neg]

theorem PFloat.mul_fin (a b : ℚ) : (PFloat.fin a).mul (.fin b) = .fin (a * b) := rfl

theorem PFloat.div_fin_of_ne (a b : ℚ) (hb : b ≠ 0) :
    (PFloat.fin a).div (.fin b) = .fin (a / b) := by
  simp [PFloat.div, hb]

theorem PFloat.div_fin_zero_of_pos (a : ℚ) (ha : 0 < a) :
    (PFloat.fin a).div (.fin 0) = .inf := by
  simp [PFloat.div, ha]

theorem PFloat.div_zero_zero : (PFloat.fin 0).div (.fin 0) = .nan := by
  simp [PFloat.div]

theorem PFloat.div_fin_inf (a : ℚ) : (PFloat.fin a).div .inf = .fin 0 := rfl

theorem PFloat.add_fin_inf (a : ℚ) : (PFloat.fin a).add .inf = .inf := rfl

theorem PFloat.div_fin_one (a : ℚ) : (PFloat.fin a).div (.fin 1) = .fin a := by
  rw [PFloat.div_fin_of_ne a 1 one_ne_zero, div_one]

/-- Claim C1: for every dataset and parameter set, a signal emitted at a bar
index whose indicators are not yet fully defined (a NaN rolling mean, RSI, or
MACD/signal-line value) is HOLD(0), never BUY(1) or SELL(-1), in
SimpleMAStrategy.generate_signals (simple_ma_strategy.py line 127),
RSIStrategy.generate_signals (rsi_strategy.py line 87) and
MACDStrategy.generate_signals (macd_strategy.py line 157). -/
theorem warmup_signals_hold (sw lw p fast slow sigp : ℕ) (os ob : ℚ) (useHist : Bool)
    (closes : List ℚ) (i : ℕ) (_hi : i < closes.length) :
    ((sma sw closes i).isna = true ∨ (sma lw closes i).isna = true →
      simpleMASignal sw lw closes i = 0) ∧
    ((rsiA p closes i).isna = true → rsiSignal p os ob closes i = 0) ∧
    ((macdAt fast slow closes i).isna = true ∨ (macdSigAt fast slow sigp closes i).isna = true →
      macdSignal fast slow sigp useHist closes i = 0) := by
  refine ⟨fun h => ?_, fun h => ?_, fun h => ?_⟩
  · rcases h with h | h <;> simp [simpleMASignal, h]
  · simp [rsiSignal, h]
  · rcases h with h | h <;> simp [macdSignal, h]

/-- Witness for C1: on the close series [1, 2, 3] with windows 2 and 3 and RSI
period 2, bar 1 lies in the warm-up window of each indicator and the emitted
signal is 0. -/
theorem warmup_signals_hold_witness :
    simpleMASignal 2 3 [1, 2, 3] 1 = 0 ∧ rsiSignal 2 30 70 [1, 2, 3] 1 = 0 :=
  ⟨(warmup_signals_hold 2 3 2 2 3 2 30 70 true [1, 2, 3] 1 (by norm_num)).1
    (Or.inr (by norm_num [sma, rollMean, PFloat.isna])),
   (warmup_signals_hold 2 3 2 2 3 2 30 70 true [1, 2, 3] 1 (by norm_num)).2.1
    (by norm_num [rsiA, rsA, replaceZeroInf, rollMean, gainA, lossA, deltaAt, PFloat.add,
      PFloat.div, PFloat.sub, PFloat.neg, PFloat.isna, List.range_succ, List.getD])⟩

/-- Claim C3, counterexample: MovingAverageStrategy.generate_signals
(moving_average.py lines 51-52) emits BUY at every bar where the short mean
exceeds the long mean, not only at the crossover bar: on closes [1, 2, 3, 4]
with windows 2 and 3 it emits BUY at bar 2 and again at bar 3, although the
short mean was already above the long mean at bar 2. -/
theorem ma_level_signal_cex :
    maLevelSignal 2 3 [1, 2, 3, 4] 3 = 1 ∧ maLevelSignal 2 3 [1, 2, 3, 4] 2 = 1 ∧
    shortAbove 2 3 [1, 2, 3, 4] 2 = true := by
  norm_num [maLevelSignal, shortAbove, sma, rollMean, PFloat.bgt, PFloat.blt, PFloat.add,
    PFloat.div, List.range_succ]

/-- Claim C3, amended: SimpleMAStrategy.generate_signals emits BUY exactly at
the bars where both moving averages are defined, a previous bar exists, the
short mean is strictly above the long mean, and it was not strictly above on
the previous bar (so equality counts as not yet crossed, and warm-up bars with
a NaN mean compare as not above); symmetrically for SELL; but
MovingAverageStrategy.generate_signals (moving_average.py) emits BUY at every
bar where the short mean exceeds the long mean. -/
theorem ma_crossover_characterization (sw lw : ℕ) (closes : List ℚ) (i : ℕ) :
    (simpleMASignal sw lw closes i = 1 ↔
      (sma sw closes i).isna = false ∧ (sma lw closes i).isna = false ∧ 1 ≤ i ∧
      shortAbove sw lw closes i = true ∧ shortAbove sw lw closes (i - 1) = false) ∧
    (simpleMASignal sw lw closes i = -1 ↔
      (sma sw closes i).isna = false ∧ (sma lw closes i).isna = false ∧ 1 ≤ i ∧
      shortAbove sw lw closes i = false ∧ shortAbove sw lw closes (i - 1) = true) ∧
    (maLevelSignal sw lw closes i = 1 ↔ (sma sw closes i).bgt (sma lw closes i) = true) := by
  refine ⟨?_, ?_, ?_⟩
  · by_cases hna : (sma sw closes i).isna = true ∨ (sma lw closes i).isna = true
    · unfold simpleMASignal
      rw [if_pos hna]
      constructor
      · intro h; exact absurd h (by norm_num)
      · rintro ⟨c1, c2, -⟩
        rcases hna with h | h
        · rw [c1] at h; exact absurd h (by norm_num)
        · rw [c2] at h; exact absurd h (by norm_num)
    · unfold simpleMASignal
      rw [if_neg hna]
      push_neg at hna
      unfold simpleMASignalRaw
      split_ifs with h0 hsell hbuy <;> simp_all <;> omega
  · by_cases hna : (sma sw closes i).isna = true ∨ (sma lw closes i).isna = true
    · unfold simpleMASignal
      rw [if_pos hna]
      constructor
      · intro h; exact absurd h (by norm_num)
      · rintro ⟨c1, c2, -⟩
        rcases hna with h | h
        · rw [c1] at h; exact absurd h (by norm_num)
        · rw [c2] at h; exact absurd h (by norm_num)
    · unfold simpleMASignal
      rw [if_neg hna]
      push_neg at hna
      unfold simpleMASignalRaw
      split_ifs with h0 hsell hbuy <;> simp_all <;> omega
  · unfold maLevelSignal
    split_ifs <;> simp_all

/-- Claim C4: while a long position opened at entry_price is active, a bar
whose close reaches the stop-loss or take-profit threshold makes
apply_risk_management (base_strategy.py lines 173-177) return an exit at the
current price, and the overlay state machine overwrites that bar's signal with
SELL and returns to NO_POSITION, whatever the strategy's own signal was. -/
theorem risk_overlay_forces_exit (entry sl tp close : ℚ) (sig : ℤ)
    (h : close ≤ entry * (1 - sl) ∨ entry * (1 + tp) ≤ close) :
    applyRiskManagement ⟨entry, sl, tp, .long⟩ close = some close ∧
    overlayStep sl tp (.long entry) sig close = (.noPosition, -1) := by
  have h1 : applyRiskManagement ⟨entry, sl, tp, .long⟩ close = some close := by
    unfold applyRiskManagement
    rcases h with h | h
    · simp [h]
    · split_ifs <;> simp_all
  refine ⟨h1, ?_⟩
  simp only [overlayStep, h1]

/-- Witness for C4: with stop_loss 0.05 and entry 100, the first bar whose
close is 95 is forced to SELL even though the strategy's own signal is BUY. -/
theorem risk_overlay_forces_exit_witness :
    applyRiskManagement ⟨100, 1/20, 3/100, .long⟩ 95 = some 95 ∧
    overlayStep (1/20) (3/100) (.long 100) 1 95 = (.noPosition, -1) :=
  risk_overlay_forces_exit 100 (1/20) (3/100) 95 1 (by norm_num)

/-- Claim C7, counterexample: in rsi_strategy.py, a window with zero average
loss yields RSI = 0, not 100: on the strictly rising closes [1, 2, 3, 4] with
period 2, the average loss at bar 2 is 0 and the computed RSI is 0, because
replace(0, inf) sends the RS ratio to gain / inf = 0. -/
theorem rsi_zero_loss_cex :
    rsiA 2 [1, 2, 3, 4] 2 = .fin 0 ∧ PFloat.fin 0 ≠ .fin 100 ∧
    rollMean 2 (lossA [1, 2, 3, 4]) 2 = .fin 0 ∧
    rollMean 2 (gainA [1, 2, 3, 4]) 2 = .fin 1 := by
  norm_num [rsiA, rsA, replaceZeroInf, rollMean, lossA, gainA, deltaAt, PFloat.add,
    PFloat.div, PFloat.sub, PFloat.neg, List.range_succ, List.getD]

/-- Claim C7, amended: a window with zero average loss yields RSI = 100 in
rsi.py (line 43-44) when the average gain is positive (gain / 0 = inf, and
100 - 100 / (1 + inf) = 100), but in rsi_strategy.py (lines 43-44) the
replace(0, inf) call sends the same window to RSI = 0 for any finite average
gain. -/
theorem rsi_zero_loss_values (p : ℕ) (closes : List ℚ) (i : ℕ) (g q : ℚ) :
    (rollMean p (lossB closes) i = .fin 0 → rollMean p (gainB closes) i = .fin g → 0 < g →
      rsiB p closes i = .fin 100) ∧
    (rollMean p (lossA closes) i = .fin 0 → rollMean p (gainA closes) i = .fin q →
      rsiA p closes i = .fin 0) := by
  constructor
  · intro hl hg hgpos
    unfold rsiB rsB
    rw [hl, hg, PFloat.div_fin_zero_of_pos g hgpos, PFloat.add_fin_inf 1,
      PFloat.div_fin_inf 100, PFloat.sub_fin]
    norm_num
  · intro hl hg
    unfold rsiA rsA
    rw [hl, hg]
    have h2 : replaceZeroInf (.fin 0) = .inf := by simp [replaceZeroInf]
    rw [h2, PFloat.div_fin_inf q, PFloat.add_fin, PFloat.div_fin_of_ne, PFloat.sub_fin]
    · norm_num
    · norm_num

/-- Witness for C7: on the strictly rising closes [1, 2, 3, 4] with period 2,
the bar-2 window has average loss 0 and average gain 1, and rsi.py computes
RSI 100 there while rsi_strategy.py computes RSI 0. -/
theorem rsi_zero_loss_witness :
    rsiB 2 [1, 2, 3, 4] 2 = .fin 100 ∧ rsiA 2 [1, 2, 3, 4] 2 = .fin 0 :=
  ⟨(rsi_zero_loss_values 2 [1, 2, 3, 4] 2 1 1).1
      (by norm_num [rollMean, lossB, List.range_succ, List.getD, PFloat.add, PFloat.div])
      (by norm_num [rollMean, gainB, List.range_succ, List.getD, PFloat.add, PFloat.div])
      (by norm_num),
   (rsi_zero_loss_values 2 [1, 2, 3, 4] 2 1 1).2
      (by norm_num [rollMean, lossA, deltaAt, List.range_succ, List.getD, PFloat.add,
        PFloat.div])
      (by norm_num [rollMean, gainA, deltaAt, List.range_succ, List.getD, PFloat.add,
        PFloat.div])⟩

/-- Claim C8, counterexample: BacktestService.run_backtest accepts
stop_loss = 0, which lies outside the open interval (0, 1) the claim requires
it to reject, and ValidationService accepts the boundary value 1 as well. -/
theorem stop_loss_zero_accepted_cex :
    runBacktestGuards 10000 0 (3/100) 1 (1/1000) = .ok () ∧
    ¬ (0 < (0 : ℚ) ∧ (0 : ℚ) < 1) ∧ validateNumericRange 1 0 1 = true := by
  refine ⟨by norm_num [runBacktestGuards], by norm_num, by norm_num [validateNumericRange]⟩

/-- Claim C8, amended: run_backtest (backtest_service.py lines 160-171) fails
before any simulation work exactly when initial_capital <= 0, stop_loss or
take_profit falls outside the half-open interval from 0 inclusive to 1
exclusive, position_size falls outside (0, 1], or commission falls outside
[0, 1); and validate_numeric_range of the web validation service accepts the
closed interval [0, 1] for the same fields. -/
theorem backtest_guards_characterization (capital sl tp ps comm : ℚ) :
    (runBacktestGuards capital sl tp ps comm = .ok () ↔
      0 < capital ∧ (0 ≤ sl ∧ sl < 1) ∧ (0 ≤ tp ∧ tp < 1) ∧ (0 < ps ∧ ps ≤ 1) ∧
      (0 ≤ comm ∧ comm < 1)) ∧
    (validateNumericRange sl 0 1 = true ↔ 0 ≤ sl ∧ sl ≤ 1) := by
  constructor
  · unfold runBacktestGuards
    split_ifs <;> simp_all [not_le, not_lt]
  · unfold validateNumericRange
    simp [not_or, not_lt]

/-- Claim C9: the body of StrategyRegistry.validate_parameters fills every
missing parameter from the schema default, so an empty raw mapping validates
to exactly the schema defaults; but the function is wrapped in
functools.lru_cache, which hashes the unhashable parameters dict, so the call
itself raises TypeError before that body runs. -/
theorem validate_parameters_lru_typeerror :
    validateParametersCached simpleMASchema [] = .typeError ∧
    validateParams simpleMASchema [] = .ok (schemaDefaults simpleMASchema) :=
  ⟨rfl, rfl⟩

theorem ddStep_if_eq_max (m v : ℚ) : (if m < v then v else m) = max m v := by
  rcases le_or_lt v m with h | h
  · rw [if_neg (not_lt.mpr h), max_eq_left h]
  · rw [if_pos h, max_eq_right h.le]

/-- The drawdown loop of backtester.py computes, coordinatewise, the negation
of the spec's min-over-time formula with the running maximum threaded the same
way, for every positive accumulator peak and value list. -/
theorem foldl_ddStep_eq (r : List ℚ) :
    ∀ (m a : ℚ), 0 < m → (∀ x ∈ r, 0 < x) →
      (r.foldl ddStep (m, a)).2 = -((ddTerms m r).foldl min (-a)) := by
  induction r with
  | nil => intro m a hm hr; simp [ddTerms]
  | cons v rest ih =>
    intro m a hm hr
    have hv : 0 < v := hr v (List.mem_cons_self v rest)
    have hmax : 0 < max m v := lt_max_of_lt_left hm
    have hstep : ddStep (m, a) v = (max m v, max a ((max m v - v) / max m v)) := by
      simp only [ddStep, ddStep_if_eq_max]
    have hterm : v / max m v - 1 = -((max m v - v) / max m v) := by
      field_simp
    calc ((v :: rest).foldl ddStep (m, a)).2
        = (rest.foldl ddStep (max m v, max a ((max m v - v) / max m v))).2 := by
          rw [List.foldl_cons, hstep]
      _ = -((ddTerms (max m v) rest).foldl min (-(max a ((max m v - v) / max m v)))) :=
          ih (max m v) _ hmax (fun x hx => hr x (List.mem_cons_of_mem v hx))
      _ = -((ddTerms m (v :: rest)).foldl min (-a)) := by
          rw [ddTerms, List.foldl_cons, hterm, ← min_neg_neg]

/-- The drawdown loop never returns less than its accumulator. -/
theorem foldl_ddStep_le (r : List ℚ) : ∀ (m a : ℚ), a ≤ (r.foldl ddStep (m, a)).2 := by
  induction r with
  | nil => intro m a; simp
  | cons v rest ih =>
    intro m a
    rw [List.foldl_cons]
    exact le_trans (le_max_left a _) (ih _ _)

/-- Claim C5, counterexample: on the curve [100, 50] the code reports the
positive magnitude 1/2 while the spec formula min(total / running_max - 1)
evaluates to -1/2, so the reported drawdown is neither that minimum nor
non-positive. -/
theorem max_drawdown_sign_cex :
    calculateMaxDrawdown [100, 50] = some (1/2) ∧ specMaxDrawdown [100, 50] = -(1/2) ∧
    ¬ ((1/2 : ℚ) ≤ 0) := by
  norm_num [calculateMaxDrawdown, maxDrawdownNE, ddStep, specMaxDrawdown, ddTerms]

/-- Claim C5, amended: for every positive equity curve the reported
max_drawdown is the negation (the absolute magnitude) of the spec's
min-over-time of (total_value / running_max - 1), hence non-negative and 0 on
a flat curve; an empty curve raises IndexError instead of returning 0. -/
theorem max_drawdown_negation_of_spec (v : ℚ) (r : List ℚ) (hv : 0 < v)
    (hr : ∀ x ∈ r, 0 < x) :
    calculateMaxDrawdown (v :: r) = some (-(specMaxDrawdown (v :: r))) ∧
    0 ≤ maxDrawdownNE v r ∧
    calculateMaxDrawdown [] = none := by
  refine ⟨?_, foldl_ddStep_le r v 0, rfl⟩
  have key := foldl_ddStep_eq r v 0 hv hr
  simp only [calculateMaxDrawdown, maxDrawdownNE, specMaxDrawdown]
  rw [key, div_self hv.ne']
  norm_num

/-- Witness for C5: on the curve [100, 50] the code's value is the negation of
the spec formula's value. -/
theorem max_drawdown_negation_witness :
    calculateMaxDrawdown [100, 50] = some (-(specMaxDrawdown [100, 50])) ∧
    0 ≤ maxDrawdownNE 100 [50] ∧ calculateMaxDrawdown [] = none :=
  max_drawdown_negation_of_spec 100 [50] (by norm_num)
    (fun x hx => by rw [List.mem_singleton] at hx; rw [hx]; norm_num)


theorem runFrom_inv (p : BtParams) (P : RunState → Prop)
    (hstep : ∀ st i sig price, 0 < price → P st → P (runStep p st i sig price)) :
    ∀ (bars : List (ℤ × ℚ)) (i : ℕ) (st : RunState),
      (∀ b ∈ bars, 0 < b.2) → P st → P (runFrom p i st bars) := by
  intro bars
  induction bars with
  | nil => intro i st hb hP; exact hP
  | cons b rest ih =>
    intro i st hb hP
    obtain ⟨sig, price⟩ := b
    exact ih (i + 1) _ (fun x hx => hb x (List.mem_cons_of_mem _ hx))
      (hstep st i sig price (hb _ (List.mem_cons_self _ rest)) hP)

theorem executeTrade_inv (p : BtParams) (pf : Portfolio) (sig : ℤ) (price : ℚ)
    (hps : 0 ≤ p.position_size) (hcm : p.commission ≤ 1) (hpr : 0 < price)
    (hc : 0 ≤ pf.cash) (hp : 0 ≤ pf.position) (ht : 0 ≤ pf.total_value) :
    0 ≤ (executeTrade p pf sig price).1.cash ∧
    0 ≤ (executeTrade p pf sig price).1.position ∧
    0 ≤ (executeTrade p pf sig price).1.total_value := by
  unfold executeTrade
  by_cases h0 : sig = 0
  · rw [if_pos h0]; exact ⟨hc, hp, ht⟩
  rw [if_neg h0]
  by_cases h1 : 0 < sig ∧ pf.position = 0
  · rw [if_pos h1]
    by_cases hg : pf.total_value * p.position_size + pf.total_value * p.position_size * p.commission ≤ pf.cash
    · rw [if_pos hg]
      exact ⟨by simp only; linarith, div_nonneg (mul_nonneg ht hps) hpr.le, ht⟩
    · rw [if_neg hg]; exact ⟨hc, hp, ht⟩
  · rw [if_neg h1]
    by_cases h2 : sig < 0 ∧ 0 < pf.position
    · rw [if_pos h2]
      refine ⟨?_, le_refl 0, ht⟩
      have hpos : 0 ≤ pf.position * price * (1 - p.commission) :=
        mul_nonneg (mul_nonneg h2.2.le hpr.le) (by linarith)
      simp only
      nlinarith [hpos]
    · rw [if_neg h2]; exact ⟨hc, hp, ht⟩

theorem runStep_cash_inv (p : BtParams) (hps : 0 ≤ p.position_size) (hcm : p.commission ≤ 1)
    (st : RunState) (i : ℕ) (sig : ℤ) (price : ℚ) (hpr : 0 < price) (hst : CashInv st) :
    CashInv (runStep p st i sig price) := by
  obtain ⟨hc, hp, ht, hh⟩ := hst
  have hex := executeTrade_inv p st.pf sig price hps hcm hpr hc hp ht
  simp only [runStep, CashInv]
  by_cases hcond : sig ≠ 0 ∧ 1 ≤ i
  · rw [if_pos hcond]
    refine ⟨hex.1, hex.2.1, add_nonneg hex.1 (mul_nonneg hex.2.1 hpr.le), ?_⟩
    intro x hx
    rcases List.mem_append.mp hx with hx | hx
    · exact hh x hx
    · rw [List.mem_singleton] at hx
      rw [hx]
      exact hex.1
  · rw [if_neg hcond]
    refine ⟨hc, hp, add_nonneg hc (mul_nonneg hp hpr.le), ?_⟩
    intro x hx
    rcases List.mem_append.mp hx with hx | hx
    · exact hh x hx
    · rw [List.mem_singleton] at hx
      rw [hx]
      exact hc

theorem executeTrade_cases (p : BtParams) (pf : Portfolio) (sig : ℤ) (price : ℚ) :
    executeTrade p pf sig price = (pf, none) ∨
    (0 < sig ∧ pf.position = 0 ∧
      pf.total_value * p.position_size + pf.total_value * p.position_size * p.commission ≤ pf.cash ∧
      executeTrade p pf sig price =
        (⟨pf.cash - (pf.total_value * p.position_size + pf.total_value * p.position_size * p.commission),
          pf.total_value * p.position_size / price, pf.total_value⟩,
         some ⟨.buy, price, pf.total_value * p.position_size / price,
           pf.total_value * p.position_size, pf.total_value * p.position_size * p.commission⟩)) ∨
    (sig < 0 ∧ 0 < pf.position ∧
      executeTrade p pf sig price =
        (⟨pf.cash + (pf.position * price - pf.position * price * p.commission), 0, pf.total_value⟩,
         some ⟨.sell, price, pf.total_value * p.position_size / price,
           pf.position * price, pf.position * price * p.commission⟩)) := by
  unfold executeTrade
  by_cases h0 : sig = 0
  · rw [if_pos h0]; left; rfl
  rw [if_neg h0]
  by_cases h1 : 0 < sig ∧ pf.position = 0
  · rw [if_pos h1]
    by_cases hg : pf.total_value * p.position_size + pf.total_value * p.position_size * p.commission ≤ pf.cash
    · rw [if_pos hg]; right; left; exact ⟨h1.1, h1.2, hg, rfl⟩
    · rw [if_neg hg]; left; rfl
  · rw [if_neg h1]
    by_cases h2 : sig < 0 ∧ 0 < pf.position
    · rw [if_pos h2]; right; right; exact ⟨h2.1, h2.2, rfl⟩
    · rw [if_neg h2]; left; rfl

theorem countP_append_single (trades : List TradeRec) (t : TradeRec) (f : TradeRec → Bool) :
    (trades ++ [t]).countP f = trades.countP f + (if f t then 1 else 0) := by
  rw [List.countP_append]
  simp [List.countP_cons]

theorem runStep_ledger_inv (p : BtParams) (hps : 0 < p.position_size) (hcm : p.commission < 1)
    (st : RunState) (i : ℕ) (sig : ℤ) (price : ℚ) (hpr : 0 < price) (hst : LedgerInv st) :
    LedgerInv (runStep p st i sig price) := by
  obtain ⟨hlen, hcases, htot⟩ := hst
  simp only [runStep, LedgerInv]
  have hnone : ∀ (x : Portfolio × Option TradeRec), x = (st.pf, none) →
      (st.trades ++ x.2.toList).length =
        buyCount (st.trades ++ x.2.toList) + sellCount (st.trades ++ x.2.toList) ∧
      ((0 < x.1.position ∧
          buyCount (st.trades ++ x.2.toList) = sellCount (st.trades ++ x.2.toList) + 1 ∧
          0 ≤ x.1.cash) ∨
        (x.1.position = 0 ∧
          buyCount (st.trades ++ x.2.toList) = sellCount (st.trades ++ x.2.toList) ∧
          0 < x.1.cash)) ∧
      0 < x.1.cash + x.1.position * price := by
    intro x hx
    rw [hx]
    simp only [Option.toList_none, List.append_nil]
    refine ⟨hlen, hcases, ?_⟩
    rcases hcases with ⟨hpos, -, hcash⟩ | ⟨hpos, -, hcash⟩
    · exact add_pos_of_nonneg_of_pos hcash (mul_pos hpos hpr)
    · rw [hpos, zero_mul, add_zero]; exact hcash
  by_cases hcond : sig ≠ 0 ∧ 1 ≤ i
  case neg =>
    rw [if_neg hcond]
    exact hnone (st.pf, none) rfl
  case pos =>
    rw [if_pos hcond]
    rcases executeTrade_cases p st.pf sig price with hcase | ⟨-, hflat, hg, hcase⟩ |
      ⟨-, hlong, hcase⟩
    · rw [hcase]
      exact hnone (st.pf, none) rfl
    · rw [hcase]
      simp only [Option.toList_some]
      rcases hcases with ⟨hpos, -, -⟩ | ⟨-, hbc, hcash⟩
      · rw [hflat] at hpos; exact absurd hpos (lt_irrefl 0)
      · have hbuy : buyCount (st.trades ++
            [⟨.buy, price, st.pf.total_value * p.position_size / price,
              st.pf.total_value * p.position_size,
              st.pf.total_value * p.position_size * p.commission⟩]) =
            buyCount st.trades + 1 := by
          unfold buyCount
          rw [countP_append_single]
          simp
        have hsell : sellCount (st.trades ++
            [⟨.buy, price, st.pf.total_value * p.position_size / price,
              st.pf.total_value * p.position_size,
              st.pf.total_value * p.position_size * p.commission⟩]) =
            sellCount st.trades := by
          unfold sellCount
          rw [countP_append_single]
          simp
        have hshares : 0 < st.pf.total_value * p.position_size / price :=
          div_pos (mul_pos htot hps) hpr
        refine ⟨?_, Or.inl ⟨hshares, ?_, by linarith⟩, ?_⟩
        · simp only [List.length_append, List.length_cons, List.length_nil, hbuy, hsell, hlen]
          omega
        · rw [hbuy, hsell, hbc]
        · rw [div_mul_cancel₀ _ hpr.ne']
          have hpv : 0 < st.pf.total_value * p.position_size := mul_pos htot hps
          linarith
    · rw [hcase]
      simp only [Option.toList_some]
      rcases hcases with ⟨-, hbc, hcash⟩ | ⟨hflat, -, -⟩
      · have hbuy : buyCount (st.trades ++
            [⟨.sell, price, st.pf.total_value * p.position_size / price,
              st.pf.position * price, st.pf.position * price * p.commission⟩]) =
            buyCount st.trades := by
          unfold buyCount
          rw [countP_append_single]
          simp
        have hsell : sellCount (st.trades ++
            [⟨.sell, price, st.pf.total_value * p.position_size / price,
              st.pf.position * price, st.pf.position * price * p.commission⟩]) =
            sellCount st.trades + 1 := by
          unfold sellCount
          rw [countP_append_single]
          simp
        have hproceeds : 0 < st.pf.position * price * (1 - p.commission) :=
          mul_pos (mul_pos hlong hpr) (by linarith)
        have hcash2 : 0 < st.pf.cash + (st.pf.position * price -
            st.pf.position * price * p.commission) := by nlinarith [hproceeds]
        refine ⟨?_, Or.inr ⟨trivial, ?_, by linarith [hcash2]⟩, ?_⟩
        · simp only [List.length_append, List.length_cons, List.length_nil, hbuy, hsell, hlen]
          omega
        · rw [hbuy, hsell, hbc]
        · rw [zero_mul, add_zero]
          exact hcash2
      · rw [hflat] at hlong; exact absurd hlong (lt_irrefl 0)

/-- Claim C2, counterexample: a run over three bars with a buy at bar 1 and a
sell at bar 2 yields a trades list of two single-sided records (one buy record
and one sell record), so the ledger length 2 differs from the single BUY entry
into LONG; and a run whose buy is never matched ends with the position still
open (50 shares), no forced close having produced any exit record. -/
theorem ledger_count_mismatch_cex :
    (runBacktest ⟨1/2, 1/50, 3/100, 0⟩ 100 [(0, 1), (1, 1), (-1, 1)]).trades.length = 2 ∧
    buyCount (runBacktest ⟨1/2, 1/50, 3/100, 0⟩ 100 [(0, 1), (1, 1), (-1, 1)]).trades = 1 ∧
    (2 : ℕ) ≠ 1 ∧
    (runBacktest ⟨1/2, 1/50, 3/100, 0⟩ 100 [(0, 1), (1, 1)]).pf.position = 50 := by
  refine ⟨?_, ?_, by norm_num, ?_⟩ <;>
    norm_num [runBacktest, runFrom, runStep, executeTrade, buyCount, sellCount,
      List.countP_cons, List.countP_nil] <;>
    decide

/-- Claim C2, amended: over any run with positive initial capital, a positive
position-size fraction, a commission rate below 1 and positive bar prices, the
Backtester ledger holds one single-sided record per executed buy and one per
executed sell (so its length is the number of buys plus the number of sells,
not the number of BUY entries into LONG); the run ends with an open position
exactly when there is one more buy record than sell records, and flat exactly
when the counts agree: a position still open at the final bar is left open,
with no forced close and no exit record. -/
theorem ledger_counts_buys_plus_sells (p : BtParams) (capital : ℚ) (bars : List (ℤ × ℚ))
    (hcap : 0 < capital) (hps : 0 < p.position_size) (hcm : p.commission < 1)
    (hpr : ∀ b ∈ bars, 0 < b.2) :
    (runBacktest p capital bars).trades.length =
      buyCount (runBacktest p capital bars).trades +
      sellCount (runBacktest p capital bars).trades ∧
    (0 < (runBacktest p capital bars).pf.position ↔
      buyCount (runBacktest p capital bars).trades =
        sellCount (runBacktest p capital bars).trades + 1) ∧
    ((runBacktest p capital bars).pf.position = 0 ↔
      buyCount (runBacktest p capital bars).trades =
        sellCount (runBacktest p capital bars).trades) := by
  simp only [runBacktest]
  have hinv := runFrom_inv p LedgerInv
    (fun st i sig price h hP => runStep_ledger_inv p hps hcm st i sig price h hP)
    bars 0 ⟨⟨capital, 0, capital⟩, [], [], []⟩ hpr
    ⟨by simp [buyCount, sellCount], Or.inr ⟨rfl, by simp [buyCount, sellCount], hcap⟩, hcap⟩
  obtain ⟨hlen, hcases, -⟩ := hinv
  refine ⟨hlen, ⟨?_, ?_⟩, ⟨?_, ?_⟩⟩
  · intro hpos
    rcases hcases with ⟨-, hbc, -⟩ | ⟨hflat, -, -⟩
    · exact hbc
    · rw [hflat] at hpos; exact absurd hpos (lt_irrefl 0)
  · intro hbc
    rcases hcases with ⟨hpos, -, -⟩ | ⟨-, hbc2, -⟩
    · exact hpos
    · omega
  · intro hflat
    rcases hcases with ⟨hpos, -, -⟩ | ⟨-, hbc, -⟩
    · rw [hflat] at hpos; exact absurd hpos (lt_irrefl 0)
    · exact hbc
  · intro hbc
    rcases hcases with ⟨-, hbc2, -⟩ | ⟨hflat, -, -⟩
    · omega
    · exact hflat

/-- Witness for C2: a two-bar run whose bar-1 buy stays open ends with 50
shares held, one buy record, no sell record, and a ledger of length one. -/
theorem ledger_counts_witness :
    (runBacktest ⟨1/2, 1/50, 3/100, 0⟩ 100 [(0, 1), (1, 1)]).trades.length =
      buyCount (runBacktest ⟨1/2, 1/50, 3/100, 0⟩ 100 [(0, 1), (1, 1)]).trades +
      sellCount (runBacktest ⟨1/2, 1/50, 3/100, 0⟩ 100 [(0, 1), (1, 1)]).trades ∧
    (0 < (runBacktest ⟨1/2, 1/50, 3/100, 0⟩ 100 [(0, 1), (1, 1)]).pf.position ↔
      buyCount (runBacktest ⟨1/2, 1/50, 3/100, 0⟩ 100 [(0, 1), (1, 1)]).trades =
        sellCount (runBacktest ⟨1/2, 1/50, 3/100, 0⟩ 100 [(0, 1), (1, 1)]).trades + 1) ∧
    ((runBacktest ⟨1/2, 1/50, 3/100, 0⟩ 100 [(0, 1), (1, 1)]).pf.position = 0 ↔
      buyCount (runBacktest ⟨1/2, 1/50, 3/100, 0⟩ 100 [(0, 1), (1, 1)]).trades =
        sellCount (runBacktest ⟨1/2, 1/50, 3/100, 0⟩ 100 [(0, 1), (1, 1)]).trades) :=
  ledger_counts_buys_plus_sells ⟨1/2, 1/50, 3/100, 0⟩ 100 [(0, 1), (1, 1)] (by norm_num)
    (by norm_num) (by norm_num)
    (by
      intro b hb
      rcases List.mem_cons.mp hb with h | h
      · rw [h]; norm_num
      · rw [List.mem_singleton] at h; rw [h]; norm_num)

/-- Claim C6, counterexample: on the flat three-bar curve [100, 100, 100] the
metrics code divides by the zero standard deviation of the two zero returns
and reports a NaN sharpe ratio instead of 0, and on the one-bar curve [100]
the annualization exponent 252 / len(returns) raises ZeroDivisionError. -/
theorem metrics_flat_curve_cex :
    ((calculateMetrics (fun _ => 0) (fun _ _ => 0) 0 [100, 100, 100]).toOption.map
      MetricsRes.sharpe = some PFloat.nan) ∧
    PFloat.nan ≠ .fin 0 ∧
    calculateMetrics (fun _ => 0) (fun _ _ => 0) 0 [100] = .error .zeroDivisionError := by
  refine ⟨?_, by simp, ?_⟩
  · norm_num [calculateMetrics, pctChange, dropna, meanP, stdP,
      PFloat.add, PFloat.div, PFloat.sub, PFloat.neg, PFloat.mul, PFloat.isna,
      List.range_succ, List.getD, Except.toOption, List.filter]
  · norm_num [calculateMetrics, pctChange, dropna,
      PFloat.add, PFloat.div, PFloat.sub, PFloat.neg, PFloat.isna,
      List.range_succ, List.getD, List.filter]

/-- Claim C6, amended: for every real square root function (anything sending 0
to 0) and power function, and every nonzero level c, the flat curve [c, c, c]
produces no exception but a NaN sharpe ratio (0 / 0, the standard deviation
being unguarded); the single-bar curve [c] raises ZeroDivisionError in the
annualization exponent; and a two-bar curve has a single return observation,
for which the length guard yields sharpe exactly 0. -/
theorem sharpe_flat_curve_nan (rsqrt : ℚ → ℚ) (powf : ℚ → ℚ → ℚ) (k : ℕ) (c : ℚ)
    (hs0 : rsqrt 0 = 0) (hc : c ≠ 0) :
    ((calculateMetrics rsqrt powf k [c, c, c]).toOption.map MetricsRes.sharpe
      = some PFloat.nan) ∧
    calculateMetrics rsqrt powf k [c] = .error .zeroDivisionError ∧
    (∀ v1 : ℚ, (calculateMetrics rsqrt powf k [c, v1]).toOption.map MetricsRes.sharpe
      = some (.fin 0)) := by
  have hcc : c / c = 1 := div_self hc
  refine ⟨?_, ?_, ?_⟩
  · norm_num [calculateMetrics, pctChange, dropna, meanP, stdP, hcc, hc, hs0,
      PFloat.add, PFloat.div, PFloat.sub, PFloat.neg, PFloat.mul, PFloat.isna,
      List.range_succ, List.getD, Except.toOption, List.filter]
  · norm_num [calculateMetrics, pctChange, dropna, hc,
      PFloat.add, PFloat.div, PFloat.sub, PFloat.neg, PFloat.isna,
      List.range_succ, List.getD, List.filter]
  · intro v1
    norm_num [calculateMetrics, pctChange, dropna, hc, hcc,
      PFloat.add, PFloat.div, PFloat.sub, PFloat.neg, PFloat.isna,
      List.range_succ, List.getD, Except.toOption, List.filter]

/-- Witness for C6: the amended statement at the concrete flat level 100, with
a square root function that sends 0 to 0. -/
theorem sharpe_flat_curve_witness :
    ((calculateMetrics (fun _ => 0) (fun _ _ => 1) 0 [100, 100, 100]).toOption.map
      MetricsRes.sharpe = some PFloat.nan) ∧
    calculateMetrics (fun _ => 0) (fun _ _ => 1) 0 [100] = .error .zeroDivisionError ∧
    (∀ v1 : ℚ, (calculateMetrics (fun _ => 0) (fun _ _ => 1) 0 [100, v1]).toOption.map
      MetricsRes.sharpe = some (.fin 0)) :=
  sharpe_flat_curve_nan (fun _ => 0) (fun _ _ => 1) 0 100 rfl (by norm_num)

/-- Claim C10: throughout Backtester.run over any signal and price sequence
with non-negative initial capital (within the guarded parameter domain: a
non-negative position-size fraction, a commission rate at most 1, positive bar
prices), the portfolio cash never becomes negative, neither in the final state
nor in any history snapshot; and a buy whose guard cash >= position value plus
commission fails leaves the portfolio unchanged and appends no trade. -/
theorem cash_never_negative (p : BtParams) (capital : ℚ) (bars : List (ℤ × ℚ))
    (hcap : 0 ≤ capital) (hps : 0 ≤ p.position_size) (hcm : p.commission ≤ 1)
    (hpr : ∀ b ∈ bars, 0 < b.2) :
    (0 ≤ (runBacktest p capital bars).pf.cash ∧
      ∀ h ∈ (runBacktest p capital bars).history, 0 ≤ h.cash) ∧
    (∀ (pf : Portfolio) (sig : ℤ) (price : ℚ), 0 < sig → pf.position = 0 →
      pf.cash < pf.total_value * p.position_size +
        pf.total_value * p.position_size * p.commission →
      executeTrade p pf sig price = (pf, none)) := by
  constructor
  · have hinv := runFrom_inv p CashInv
      (fun st i sig price h hP => runStep_cash_inv p hps hcm st i sig price h hP)
      bars 0 ⟨⟨capital, 0, capital⟩, [], [], []⟩ hpr
      ⟨hcap, le_refl 0, hcap, by intro x hx; simp at hx⟩
    exact ⟨hinv.1, hinv.2.2.2⟩
  · intro pf sig price hsig hflat hguard
    unfold executeTrade
    rw [if_neg (by omega : ¬ sig = 0), if_pos ⟨hsig, hflat⟩, if_neg (not_le.mpr hguard)]

/-- Witness for C10: a concrete one-bar run with positive price, and the
guard-failure clause, instantiated. -/
theorem cash_never_negative_witness :
    (0 ≤ (runBacktest ⟨1/2, 1/50, 3/100, 1/1000⟩ 100 [(1, 2)]).pf.cash ∧
      ∀ h ∈ (runBacktest ⟨1/2, 1/50, 3/100, 1/1000⟩ 100 [(1, 2)]).history, 0 ≤ h.cash) ∧
    (∀ (pf : Portfolio) (sig : ℤ) (price : ℚ), 0 < sig → pf.position = 0 →
      pf.cash < pf.total_value * (1/2 : ℚ) + pf.total_value * (1/2 : ℚ) * (1/1000 : ℚ) →
      executeTrade ⟨1/2, 1/50, 3/100, 1/1000⟩ pf sig price = (pf, none)) :=
  cash_never_negative ⟨1/2, 1/50, 3/100, 1/1000⟩ 100 [(1, 2)] (by norm_num) (by norm_num)
    (by norm_num)
    (by intro b hb; rw [List.mem_singleton] at hb; rw [hb]; norm_num)

/-- Round trip of the validation body: every schema whose entries all declare
a default validates the empty raw mapping to exactly those defaults. -/
theorem validateParams_defaults (schema : List (String × ParamSpec))
    (hd : ∀ s ∈ schema, s.2.default.isSome = true) :
    validateParams schema [] = .ok (schemaDefaults schema) := by
  induction schema with
  | nil => rfl
  | cons s rest ih =>
    have hs : s.2.default.isSome = true := hd s (List.mem_cons_self s rest)
    obtain ⟨d, hdd⟩ := Option.isSome_iff_exists.mp hs
    have hrest := ih (fun t ht => hd t (List.mem_cons_of_mem s ht))
    unfold validateParams
    simp [lookupRaw, hdd, hrest, schemaDefaults, Except.map]

end BtcBacktester
